import Mathlib

/-!
Verification development for the Grabadora transcription job service.

Each Python function relevant to the checked properties is shallowly
embedded as an executable Lean definition.  Python `str` values that are
manipulated character by character (strip/split/replace/slicing) are
modelled as `List Char` (`PyStr`); strings that are only stored and
compared are modelled as `String`.  Machine floats that carry time
values are modelled as `ℚ`; event-loop clock readings, which are only
compared, are modelled as `Int`.
-/

namespace Grabadora

/-- Python strings, viewed as character lists where character-level
operations (strip, split, replace, slicing) matter. -/
abbrev PyStr := List Char

/-- Model of Python `str.strip()`: drop whitespace from both ends. -/
def pyStrip (s : PyStr) : PyStr :=
  ((s.dropWhile Char.isWhitespace).reverse.dropWhile Char.isWhitespace).reverse

/-! ### Tag helpers (`app/main.py`: `_split_tags`, `_join_tags`) -/

/-- The runtime type of the `raw` argument of `_split_tags`
(`Optional[str | List[str]]`, the `Option` layer is kept outside). -/
inductive TagsRaw where
  | ofStr (s : PyStr)
  | ofList (l : List PyStr)
deriving DecidableEq

/-- Embedding of `_split_tags` (`app/main.py`).  `None` gives `[]`; a
list input is stripped element-wise; a string input is split on `","`,
stripped (once by the list comprehension building `source` and once more
by the generator in the return statement) and emptied items are
filtered out. -/
def splitTags : Option TagsRaw → List PyStr
  | none => []
  | some (.ofList l) => (l.map pyStrip).filter (fun item => item ≠ [])
  | some (.ofStr s) =>
      (((s.splitOn ',').map pyStrip).map pyStrip).filter (fun item => item ≠ [])

/-- Embedding of `_join_tags` (`app/main.py`): falsy input (None or the
empty list) gives `None`, otherwise the comma join of the tags. -/
def joinTags : Option (List PyStr) → Option PyStr
  | none => none
  | some [] => none
  | some (t :: ts) => some (List.intercalate [','] (t :: ts))

/-! ### Local artifact store (`storage/s3.py`: `S3StorageClient`) -/

/-- Model of `pathlib.Path(object_name).parts` for a relative key:
split on `/`, dropping empty components and `"."` (pathlib removes both
at construction). `".."` components are kept. -/
def partsOfKey (key : PyStr) : List PyStr :=
  (key.splitOn '/').filter (fun c => c ≠ [] ∧ c ≠ ['.'])

/-- An object key beginning with `/` is absolute; `Path.joinpath` then
discards the base (its first part is the root). -/
def keyIsAbsolute (key : PyStr) : Bool := key.head? == some '/'

/-- Model of `base.joinpath(*Path(object_name).parts)` as a component
list relative to the filesystem root. -/
def joinedParts (base : List PyStr) (key : PyStr) : List PyStr :=
  if keyIsAbsolute key then partsOfKey key else base ++ partsOfKey key

/-- Lexical model of `Path.resolve()`: collapse `".."` components by
popping the previous component (at the root, `".."` stays at the
root, as in POSIX). -/
def resolveParts (parts : List PyStr) : List PyStr :=
  parts.foldl (fun acc c => if c = ['.', '.'] then acc.dropLast else acc ++ [c]) []

/-- Embedding of `S3StorageClient._local_path`: join the key under the
base directory, resolve both, and fail (`ValueError`) unless the
resolved target stays inside the resolved base
(`resolved_target.is_relative_to(resolved_base)`). -/
def localPath (base : List PyStr) (key : PyStr) : Option (List PyStr) :=
  let target := resolveParts (joinedParts base key)
  if (resolveParts base).isPrefixOf target then some target else none

/-- A filesystem access performed by a local-mode store operation,
tagged with the store path it touches. -/
inductive FsAccess where
  | readF (p : List PyStr)
  | writeF (p : List PyStr)
  | deleteF (p : List PyStr)
deriving DecidableEq

/-- The store path touched by an access. -/
def accessPath : FsAccess → List PyStr
  | .readF p => p
  | .writeF p => p
  | .deleteF p => p

/-- The ValueError message raised by `_local_path`. -/
def outsideRootError : String := "Ruta fuera del directorio de almacenamiento"

/-- `upload_audio` in local mode: write under `_local_path`. -/
def uploadAudioLocal (audioDir : List PyStr) (key : PyStr) : Except String (List FsAccess) :=
  match localPath audioDir key with
  | some p => .ok [.writeF p]
  | none => .error outsideRootError

/-- `upload_transcript` in local mode: write under `_local_path`. -/
def uploadTranscriptLocal (transcriptsDir : List PyStr) (key : PyStr) :
    Except String (List FsAccess) :=
  match localPath transcriptsDir key with
  | some p => .ok [.writeF p]
  | none => .error outsideRootError

/-- `download_audio` in local mode: read the `_local_path` source. -/
def downloadAudioLocal (audioDir : List PyStr) (key : PyStr) : Except String (List FsAccess) :=
  match localPath audioDir key with
  | some p => .ok [.readF p]
  | none => .error outsideRootError

/-- `download_transcript` in local mode: read the `_local_path` source. -/
def downloadTranscriptLocal (transcriptsDir : List PyStr) (key : PyStr) :
    Except String (List FsAccess) :=
  match localPath transcriptsDir key with
  | some p => .ok [.readF p]
  | none => .error outsideRootError

/-- `delete_audio` in local mode: unlink the `_local_path` target. -/
def deleteAudioLocal (audioDir : List PyStr) (key : PyStr) : Except String (List FsAccess) :=
  match localPath audioDir key with
  | some p => .ok [.deleteF p]
  | none => .error outsideRootError

/-- `delete_transcript` in local mode: unlink the `_local_path` target. -/
def deleteTranscriptLocal (transcriptsDir : List PyStr) (key : PyStr) :
    Except String (List FsAccess) :=
  match localPath transcriptsDir key with
  | some p => .ok [.deleteF p]
  | none => .error outsideRootError

/-- `create_presigned_url` in local mode: probe the `_local_path`. -/
def createPresignedUrlLocal (transcriptsDir : List PyStr) (key : PyStr) :
    Except String (List FsAccess) :=
  match localPath transcriptsDir key with
  | some p => .ok [.readF p]
  | none => .error outsideRootError

/-- All store accesses of a local-mode operation stay under the root
(trivially true when the operation raised). -/
def opWithinRoot (base : List PyStr) (r : Except String (List FsAccess)) : Bool :=
  match r with
  | .error _ => true
  | .ok accs => accs.all (fun a => (resolveParts base).isPrefixOf (accessPath a))

/-! ### Upload size validation (`app/routers/transcriptions.py` and
`app/main.py`) -/

/-- An HTTPException, reduced to status code and detail. -/
structure HttpError where
  status : Nat
  detail : String
deriving DecidableEq

/-- `settings.max_upload_size_mb` default (`app/config.py`). -/
def defaultMaxUploadSizeMb : Nat := 500

/-- The byte bound used by `_validate_upload_size`. -/
def maxUploadSizeBytes (maxUploadSizeMb : Nat) : Nat := maxUploadSizeMb * 1024 * 1024

/-- Embedding of `_validate_upload_size`
(`app/routers/transcriptions.py`): reject with 413 exactly when the
upload size exceeds `max_upload_size_mb * 1024 * 1024` bytes. -/
def validateUploadSize (maxUploadSizeMb : Nat) (size : Nat) : Except HttpError Unit :=
  if size > maxUploadSizeMb * 1024 * 1024 then
    .error ⟨413, "Archivo demasiado grande"⟩
  else .ok ()

/-- Validation gate of `_enqueue_transcription`
(`app/routers/transcriptions.py`): media-type check, then size check,
then destination-folder check; acceptance means the job row is created. -/
def enqueueTranscriptionGate (maxUploadSizeMb : Nat) (mediaOk : Bool) (size : Nat)
    (folderOk : Bool) : Except HttpError Unit :=
  if !mediaOk then .error ⟨400, "Solo se permiten archivos de audio o video"⟩
  else
    match validateUploadSize maxUploadSizeMb size with
    | .error e => .error e
    | .ok _ => if !folderOk then .error ⟨400, "Debes indicar una carpeta de destino"⟩ else .ok ()

/-- Keys of `QUALITY_PROFILES` (`app/main.py`). -/
def QUALITY_PROFILES : List String := ["fast", "balanced", "precise"]

/-- Validation gate of `create_transcription_job`, the `POST /transcribe`
handler in `app/main.py`: the only request validation it performs is the
quality-profile membership check; the upload size is never inspected
before the file is stored and the job enqueued. -/
def createTranscriptionJobGate (profile : String) (uploadSizeBytes : Nat) :
    Except HttpError String :=
  if profile ∉ QUALITY_PROFILES then .error ⟨400, "Invalid quality profile"⟩
  else .ok "queued"

/-! ### SRT rendering (`app/main.py`: `_segments_to_srt`;
`app/routers/transcriptions.py`: `_format_srt_timestamp`) -/

/-- Characters of `str(n)` for a natural number. -/
def natChars (n : Nat) : PyStr := (toString n).data

/-- Left zero-padding to a given width (Python `"{:0Nd}".format`). -/
def zfill (w : Nat) (s : PyStr) : PyStr :=
  if s.length < w then List.replicate (w - s.length) '0' ++ s else s

/-- Two-digit zero-padded rendering. -/
def pad2 (n : Nat) : PyStr := zfill 2 (natChars n)

/-- Three-digit zero-padded rendering. -/
def pad3 (n : Nat) : PyStr := zfill 3 (natChars n)

/-- Six-digit zero-padded rendering. -/
def pad6 (n : Nat) : PyStr := zfill 6 (natChars n)

/-- Python `round()`: round half to even. -/
def pyRound (q : ℚ) : Int :=
  let f : Int := ⌊q⌋
  if q - f < 1 / 2 then f
  else if (1 : ℚ) / 2 < q - f then f + 1
  else if f % 2 = 0 then f else f + 1

/-- Embedding of `_format_srt_timestamp`
(`app/routers/transcriptions.py`): milliseconds clamped at 0, then
divmod into hours/minutes/seconds/milliseconds with fixed widths and a
comma separator. -/
def formatSrtTimestamp (seconds : ℚ) : PyStr :=
  let totalMs : Nat := (max 0 (pyRound (seconds * 1000))).toNat
  let hours := totalMs / 3600000
  let r1 := totalMs % 3600000
  let minutes := r1 / 60000
  let r2 := r1 % 60000
  let secs := r2 / 1000
  let millis := r2 % 1000
  pad2 hours ++ [':'] ++ pad2 minutes ++ [':'] ++ pad2 secs ++ [','] ++ pad3 millis

/-- Model of `datetime.utcfromtimestamp(q).time()` for non-negative
timestamps: the second of day (wrapping at 24h) and the microsecond. -/
def utcTimestampParts (q : ℚ) : Nat × Nat :=
  let totalMicro : Nat := (pyRound (q * 1000000)).toNat
  (totalMicro / 1000000 % 86400, totalMicro % 1000000)

/-- Model of `str(t)` for a `datetime.time` value: `HH:MM:SS` when the
microsecond is zero, `HH:MM:SS.ffffff` otherwise. -/
def pyTimeStr (p : Nat × Nat) : PyStr :=
  pad2 (p.1 / 3600) ++ [':'] ++ pad2 (p.1 % 3600 / 60) ++ [':'] ++ pad2 (p.1 % 60) ++
    (if p.2 = 0 then [] else ['.'] ++ pad6 p.2)

/-- The timestamp rendering of `_segments_to_srt` (`app/main.py`):
`str(datetime.utcfromtimestamp(t).time())[:12]` with `.` replaced by
`,`. -/
def mainSrtTimestamp (q : ℚ) : PyStr :=
  ((pyTimeStr (utcTimestampParts q)).take 12).map (fun c => if c = '.' then ',' else c)

/-- One entry of the segment payload consumed by `_segments_to_srt`. -/
structure SrtSegment where
  start : ℚ
  stop : ℚ
  text : PyStr
deriving DecidableEq

/-- The per-segment lines accumulated by `_segments_to_srt`, with
1-based indices. -/
def srtLines : Nat → List SrtSegment → List PyStr
  | _, [] => []
  | idx, s :: rest =>
      [natChars idx,
       mainSrtTimestamp s.start ++ " --> ".data ++ mainSrtTimestamp s.stop,
       pyStrip s.text,
       []] ++ srtLines (idx + 1) rest

/-- Embedding of `_segments_to_srt` (`app/main.py`):
`"\n".join(lines).strip()`. -/
def segmentsToSrt (segs : List SrtSegment) : PyStr :=
  pyStrip (List.intercalate ['\n'] (srtLines 1 segs))

/-! ### Live session segment promotion
(`app/routers/transcriptions.py`: `push_live_chunk`) -/

/-- The module-level knobs consumed by the promotion loop
(`LIVE_REPEAT_WINDOW_SECONDS`, `LIVE_REPEAT_MAX_DUPLICATES`,
`LIVE_RECENT_TEXT_HISTORY`). -/
structure LiveParams where
  repeatWindowSeconds : ℚ
  repeatMaxDuplicates : Nat
  recentTextHistory : Nat
deriving DecidableEq

/-- One decoded segment of a live window, with window-relative times. -/
structure RawSegment where
  start : ℚ
  stop : ℚ
  speaker : Option PyStr
  text : PyStr
deriving DecidableEq

/-- One accepted (promoted) segment, with absolute times. -/
structure AcceptedSegment where
  start : ℚ
  stop : ℚ
  speaker : Option PyStr
  text : PyStr
deriving DecidableEq

/-- The live-session fields mutated by the promotion loop. -/
structure LiveSessionState where
  segments : List AcceptedSegment
  recentTexts : List (PyStr × ℚ)
  lastTEnd : ℚ
deriving DecidableEq

/-- `deque(maxlen=cap)` append: keep only the last `cap` entries. -/
def dequePush (cap : Nat) (l : List (PyStr × ℚ)) (x : PyStr × ℚ) : List (PyStr × ℚ) :=
  let l2 := l ++ [x]
  l2.drop (l2.length - cap)

/-- The previous-segment duplicate test of the promotion loop: same
text and both endpoints within 0.5 s of the previous accepted
segment. -/
def prevDuplicate (segs : List AcceptedSegment) (text : PyStr) (absStart absEnd : ℚ) : Bool :=
  match segs.getLast? with
  | some prev =>
      decide (prev.text = text) && decide (|prev.start - absStart| < 1 / 2) &&
        decide (|prev.stop - absEnd| < 1 / 2)
  | none => false

/-- Count of recent accepted texts equal to `text` that started within
`repeat_window` seconds before `absStart`. -/
def repeatCount (recent : List (PyStr × ℚ)) (text : PyStr) (absStart window : ℚ) : Nat :=
  recent.countP (fun rt => decide (rt.1 = text) && decide (absStart - rt.2 ≤ window))

/-- The `should_append` decision of the promotion loop in
`push_live_chunk`: drop a segment already covered by `last_t_end` (with
1 ms slack), drop a near-identical repeat of the previous accepted
segment, and drop short-window repetitions once `repeat_max` is
reached. -/
def shouldAppendSegment (p : LiveParams) (st : LiveSessionState) (text : PyStr)
    (absStart absEnd : ℚ) : Bool :=
  if decide (absEnd ≤ st.lastTEnd + 1 / 1000) then false
  else if prevDuplicate st.segments text absStart absEnd then false
  else if decide (0 < p.repeatMaxDuplicates) &&
      decide (p.repeatMaxDuplicates ≤ repeatCount st.recentTexts text absStart p.repeatWindowSeconds) then
    false
  else true

/-- One iteration of the promotion loop of `push_live_chunk`: skip
segments whose stripped text is empty; otherwise advance `last_t_end`
to `max(last_t_end, abs_end)` (for accepted and dropped segments alike)
and, when accepted, append to the segment list and the recent-text
deque. -/
def promoteSegment (p : LiveParams) (windowOffset : ℚ) (st : LiveSessionState)
    (seg : RawSegment) : LiveSessionState :=
  let text := pyStrip seg.text
  if text = [] then st
  else
    let absStart := windowOffset + seg.start
    let absEnd := windowOffset + seg.stop
    let ok := shouldAppendSegment p st text absStart absEnd
    let st1 : LiveSessionState := { st with lastTEnd := max st.lastTEnd absEnd }
    if ok then
      { st1 with
        segments := st1.segments ++ [⟨absStart, absEnd, seg.speaker, text⟩],
        recentTexts := dequePush p.recentTextHistory st1.recentTexts (text, absStart) }
    else st1

/-- The whole promotion loop over the decoded segments of one chunk. -/
def promoteChunkSegments (p : LiveParams) (windowOffset : ℚ) (st : LiveSessionState)
    (segs : List RawSegment) : LiveSessionState :=
  segs.foldl (promoteSegment p windowOffset) st

/-! ### Worker metadata updates (`taskqueue/tasks.py`) -/

/-- A value stored under the `last_token` metadata key: the worker
writes `json.dumps(token)` (a string); defensively the stream also
accepts a raw dict. -/
inductive TokenVal where
  | str (s : String)
  | dict (entries : List (String × String))
deriving DecidableEq

/-- A value stored under the `segments_partial` metadata key: either a
JSON string (its parse is a list or fails) or an already-decoded list;
segment items are kept opaque. -/
inductive SegmentsPartialVal where
  | ofStr (parsedList : Option (List String))
  | ofList (items : List String)
  | other
deriving DecidableEq

/-- The envelope metadata mapping, with the recognized keys as optional
fields (`none` models both an absent key and a JSON null, which every
read in the code treats identically via `.get`). -/
structure JobMeta where
  status : Option String := none
  progress : Option Int := none
  segment : Option Int := none
  userId : Option Int := none
  qualityProfile : Option String := none
  queuedAt : Option String := none
  updatedAt : Option String := none
  lastToken : Option TokenVal := none
  transcriptSoFar : Option String := none
  segmentsPartial : Option SegmentsPartialVal := none
  transcriptKey : Option String := none
  language : Option String := none
  duration : Option ℚ := none
  errorMessage : Option String := none
  segmentsFinal : Option (List String) := none
  transcriptId : Option Int := none
deriving DecidableEq

/-- `int(meta.get("progress", 0) or 0)`: the progress value read from a
metadata mapping. -/
def progVal (m : JobMeta) : Int := m.progress.getD 0

/-- Embedding of `_update_job_meta` (`taskqueue/tasks.py`):
`setdefault` for `progress` and `segment`, then the caller's update,
then stamp `updated_at`; `save_meta()` makes the result observable. -/
def updateJobMetaWrap (now : String) (m : JobMeta) (upd : JobMeta → JobMeta) : JobMeta :=
  let m1 := { m with progress := some (m.progress.getD 0), segment := some (m.segment.getD 0) }
  let m2 := upd m1
  { m2 with updatedAt := some now }

/-- A token event delivered to `on_token`: the payload dict carries
`text`, window times and a segment index. -/
structure Token where
  text : String
  t0 : Option ℚ := none
  t1 : Option ℚ := none
  segment : Option Int := none
deriving DecidableEq

/-- Model of `json.dumps(token)`; the stream treats the serialized
token as an opaque (non-empty) string. -/
def tokenDumps (t : Token) : String :=
  "\x7b\"text\": \"" ++ t.text ++ "\"\x7d"

/-- The `result` dict returned by `TranscriptionService.transcribe`;
segment payloads are kept opaque. -/
structure EngineResult where
  text : String
  language : Option String := none
  duration : Option ℚ := none
  segments : List String := []
deriving DecidableEq

/-- The metadata update of `on_token` (`transcribe_job` in
`taskqueue/tasks.py`): `parts` is the transcript buffer after the
append, so `progress` is the accumulated token count and `segment`
defaults to it. -/
def onTokenMeta (now : String) (parts : List String) (m : JobMeta) (t : Token) : JobMeta :=
  updateJobMetaWrap now m (fun mm =>
    { mm with
      lastToken := some (TokenVal.str (tokenDumps t)),
      progress := some ((parts.length : Int)),
      segment := some (t.segment.getD ((parts.length : Int))) })

/-- The token phase of `transcribe_job`: fold `on_token` over the token
events, returning the list of metadata values saved after each token
together with the final transcript buffer and metadata. -/
def tokenRun (now : String) (parts : List String) (m : JobMeta) :
    List Token → List JobMeta × List String × JobMeta
  | [] => ([], parts, m)
  | t :: ts =>
      let parts2 := parts ++ [t.text]
      let m2 := onTokenMeta now parts2 m t
      let rest := tokenRun now parts2 m2 ts
      (m2 :: rest.1, rest.2)

/-- The first metadata update of `transcribe_job`: mark the envelope
`transcribing` and record the quality profile. -/
def transcribingMeta (now : String) (m0 : JobMeta) (qualityProfile : Option String) : JobMeta :=
  updateJobMetaWrap now m0 (fun mm =>
    { mm with status := some "transcribing", qualityProfile := qualityProfile })

/-- The final metadata update of `transcribe_job`: mark the envelope
`completed` and record the transcript key (`<audio_key>.txt`), the
engine result fields and the final segment count. -/
def completedMeta (now audioKey : String) (m : JobMeta) (result : EngineResult) : JobMeta :=
  updateJobMetaWrap now m (fun mm =>
    { mm with
      status := some "completed",
      transcriptKey := some (audioKey ++ ".txt"),
      segmentsFinal := some result.segments,
      language := result.language,
      duration := result.duration,
      segment := some ((result.segments.length : Int)) })

/-- The sequence of envelope metadata values saved by `transcribe_job`
(`taskqueue/tasks.py`) over a successful run: the `transcribing`
update, one update per token event, and the final `completed` update. -/
def transcribeJobMetas (now audioKey : String) (m0 : JobMeta) (qualityProfile : Option String)
    (tokens : List Token) (result : EngineResult) : List JobMeta :=
  let m1 := transcribingMeta now m0 qualityProfile
  let run := tokenRun now [] m1 tokens
  m1 :: run.1 ++ [completedMeta now audioKey run.2.2 result]

/-! ### Progress stream (`app/main.py`: `_stream_job`) -/

/-- `json.dumps` of a string-valued dict, used only for the truthiness
of the serialized `last_token`. -/
def jsonDumpDict (entries : List (String × String)) : String :=
  "\x7b" ++ String.intercalate ", "
      (entries.map (fun kv => "\"" ++ kv.1 ++ "\": \"" ++ kv.2 ++ "\"")) ++ "\x7d"

/-- `token_payload_text` in `_stream_job`: a dict payload is serialized
with `json.dumps`, anything else is passed through. -/
def jsonTokenText : Option TokenVal → Option String
  | none => none
  | some (.dict entries) => some (jsonDumpDict entries)
  | some (.str s) => some s

/-- Python truthiness of an optional string (`None` and `""` are
falsy). -/
def pyTruthyStr : Option String → Bool
  | none => false
  | some s => !(s == "")

/-- The `last_token` values the worker can actually store: absent, a
dict, or a non-empty serialized string (the worker always stores
`json.dumps(token)`, which is non-empty). -/
def tokenOk : Option TokenVal → Prop
  | some (.str s) => s ≠ ""
  | _ => True

/-- The ownership test of `_stream_job`:
`expected_user_id is not None and meta.get("user_id") not in
{expected_user_id, None}`. -/
def authFail : Option Int → Option Int → Bool
  | some expected, some u => u != expected
  | _, _ => false

/-- `meta.get("status") or status`. -/
def metaStatusOf (m : JobMeta) (status : String) : String :=
  match m.status with
  | none => status
  | some s => if s == "" then status else s

/-- `segments_payload` as attached to a snapshot body: an
already-decoded list is kept, a string is kept only if it parses to a
list. -/
def snapshotSegments : Option SegmentsPartialVal → Option (List String)
  | some (.ofList items) => some items
  | some (.ofStr (some items)) => some items
  | _ => none

/-- The `snapshot` event payload. -/
structure SnapshotBody where
  jobId : String
  text : String
  progress : Int
  segments : Option (List String)
deriving DecidableEq

/-- The `heartbeat` event payload. -/
structure HeartbeatBody where
  jobId : String
  status : String
  progress : Int
deriving DecidableEq

/-- The `completed` event payload. -/
structure CompletedBody where
  jobId : String
  transcriptKey : Option String
  language : Option String
  duration : Option ℚ
  qualityProfile : Option String
deriving DecidableEq

/-- One server-sent event yielded by `_stream_job`.  The pre-loop and
in-loop `job-not-found` errors carry only a detail; the failure error
also carries the job id. -/
inductive SSEEvent where
  | snapshot (body : SnapshotBody)
  | delta (data : String)
  | heartbeat (body : HeartbeatBody)
  | completed (body : CompletedBody)
  | error (jobId : Option String) (detail : String)
deriving DecidableEq

/-- Whether an event is a `delta`. -/
def isDelta : SSEEvent → Bool
  | .delta _ => true
  | _ => false

/-- Whether an event is terminal (`completed` or `error`). -/
def isTerminal : SSEEvent → Bool
  | .completed _ => true
  | .error _ _ => true
  | _ => false

/-- The loop-local variables of `_stream_job`. -/
structure StreamState where
  lastProgress : Int
  lastSnapshotProgress : Int
  snapshotSent : Bool
  lastHeartbeat : Int
deriving DecidableEq

/-- What one poll iteration observes: the refreshed metadata, the job
status, and the event-loop clock. -/
structure PollObs where
  meta : JobMeta
  status : String
  now : Int
deriving DecidableEq

/-- The snapshot condition: non-empty `transcript_so_far` and either no
snapshot sent yet or progress advanced by at least 25 since the last
snapshot. -/
def snapFire (st : StreamState) (m : JobMeta) : Bool :=
  pyTruthyStr m.transcriptSoFar &&
    (!st.snapshotSent || decide (25 ≤ progVal m - st.lastSnapshotProgress))

/-- The delta condition: `progress_value > last_progress and
token_payload_text`. -/
def deltaFire (st : StreamState) (m : JobMeta) : Bool :=
  decide (st.lastProgress < progVal m) && pyTruthyStr (jsonTokenText m.lastToken)

/-- `heartbeat_interval` (10 seconds). -/
def heartbeatInterval : Int := 10

/-- The heartbeat condition: `now - last_heartbeat >=
heartbeat_interval`. -/
def hbFire (lastHb now : Int) : Bool := decide (heartbeatInterval ≤ now - lastHb)

/-- The result of one poll iteration: the events yielded, the updated
loop state, and whether the generator returned. -/
structure PollOut where
  events : List SSEEvent
  state : StreamState
  stop : Bool

/-- The body of one poll iteration of `_stream_job` after the
ownership re-check: in order emit the snapshot, the delta, a terminal
`completed`/`error` (breaking out of the loop), or a heartbeat. -/
def pollBody (jobId : String) (st : StreamState) (o : PollObs) : PollOut :=
  let pv := progVal o.meta
  let snapEvs : List SSEEvent :=
    if snapFire st o.meta then
      [.snapshot ⟨jobId, o.meta.transcriptSoFar.getD "", pv,
          snapshotSegments o.meta.segmentsPartial⟩]
    else []
  let st1 := if snapFire st o.meta then
      { st with snapshotSent := true, lastSnapshotProgress := pv } else st
  let deltaEvs : List SSEEvent :=
    if deltaFire st o.meta then [.delta ((jsonTokenText o.meta.lastToken).getD "")] else []
  let st2 := if deltaFire st o.meta then { st1 with lastProgress := pv } else st1
  let ms := metaStatusOf o.meta o.status
  if ms == "completed" then
    ⟨snapEvs ++ deltaEvs ++ [.completed ⟨jobId, o.meta.transcriptKey, o.meta.language,
        o.meta.duration, o.meta.qualityProfile⟩], st2, true⟩
  else if ms == "failed" || o.status == "failed" then
    ⟨snapEvs ++ deltaEvs ++ [.error (some jobId) (o.meta.errorMessage.getD "unknown")],
      st2, true⟩
  else
    let hbEvs : List SSEEvent :=
      if hbFire st2.lastHeartbeat o.now then [.heartbeat ⟨jobId, ms, pv⟩] else []
    let st3 := if hbFire st2.lastHeartbeat o.now then
        { st2 with lastHeartbeat := o.now } else st2
    ⟨snapEvs ++ deltaEvs ++ hbEvs, st3, false⟩

/-- One iteration of the polling loop of `_stream_job`: re-check
ownership (yielding `job-not-found` and returning on mismatch), then
run the poll body. -/
def pollStep (jobId : String) (expected : Option Int) (st : StreamState) (o : PollObs) :
    PollOut :=
  if authFail expected o.meta.userId then
    ⟨[.error none "job-not-found"], st, true⟩
  else pollBody jobId st o

/-- A job as returned by `queue.fetch_job`, reduced to its id and
metadata. -/
structure FetchedJob where
  id : String
  meta : JobMeta
deriving DecidableEq

/-- The loop state right before the first iteration of `_stream_job`. -/
def initStreamState (m : JobMeta) (t0 : Int) : StreamState :=
  let lp := progVal m
  ⟨lp, lp, lp == 0, t0⟩

/-- The polling loop of `_stream_job`, driven by a finite list of poll
observations (one per wakeup). -/
def streamLoop (jobId : String) (expected : Option Int) :
    StreamState → List PollObs → List SSEEvent
  | _, [] => []
  | st, o :: rest =>
      let out := pollStep jobId expected st o
      if out.stop then out.events else out.events ++ streamLoop jobId expected out.state rest

/-- The event sequence produced by `_stream_job` for one subscriber:
missing envelope and foreign-owner envelopes yield a single
`job-not-found` error; otherwise the polling loop runs from the
initial state. -/
def streamJob (job : Option FetchedJob) (expected : Option Int) (t0 : Int)
    (obs : List PollObs) : List SSEEvent :=
  match job with
  | none => [.error none "job-not-found"]
  | some j =>
      if authFail expected j.meta.userId then [.error none "job-not-found"]
      else streamLoop j.id expected (initStreamState j.meta t0) obs

/-! ## Theorems -/

/-- Helper: the guard of `_local_path` succeeds exactly when the
resolved target stays under the resolved base. -/
theorem localPath_isSome (base : List PyStr) (key : PyStr) :
    (localPath base key).isSome
      = (resolveParts base).isPrefixOf (resolveParts (joinedParts base key)) := by
  unfold localPath
  by_cases h : (resolveParts base).isPrefixOf (resolveParts (joinedParts base key))
  · simp [h]
  · simp [h]

/-- Helper: a path returned by `_local_path` is under the resolved
base. -/
theorem localPath_sound (base : List PyStr) (key : PyStr) (p : List PyStr)
    (h : localPath base key = some p) :
    (resolveParts base).isPrefixOf p = true := by
  unfold localPath at h
  by_cases hg : (resolveParts base).isPrefixOf (resolveParts (joinedParts base key))
  · simp [hg] at h
    exact h ▸ hg
  · simp [hg] at h

/-- Claim C8: every local-mode artifact-store operation either raises
the out-of-root error or touches only paths under the resolved store
root, and the `_local_path` guard raises exactly when the resolved
target is not contained in the resolved base directory. -/
theorem c8_local_store_rejects_escaping_keys
    (audioDir transcriptsDir base : List PyStr) (key : PyStr) :
    ((localPath base key).isSome
        = (resolveParts base).isPrefixOf (resolveParts (joinedParts base key)))
    ∧ opWithinRoot audioDir (uploadAudioLocal audioDir key) = true
    ∧ opWithinRoot transcriptsDir (uploadTranscriptLocal transcriptsDir key) = true
    ∧ opWithinRoot audioDir (downloadAudioLocal audioDir key) = true
    ∧ opWithinRoot transcriptsDir (downloadTranscriptLocal transcriptsDir key) = true
    ∧ opWithinRoot audioDir (deleteAudioLocal audioDir key) = true
    ∧ opWithinRoot transcriptsDir (deleteTranscriptLocal transcriptsDir key) = true
    ∧ opWithinRoot transcriptsDir (createPresignedUrlLocal transcriptsDir key) = true := by
  refine ⟨localPath_isSome base key, ?_, ?_, ?_, ?_, ?_, ?_, ?_⟩ <;>
    first
    | (unfold uploadAudioLocal opWithinRoot
       cases h : localPath audioDir key with
       | none => simp
       | some p => simp [accessPath, localPath_sound audioDir key p h])
    | (unfold uploadTranscriptLocal opWithinRoot
       cases h : localPath transcriptsDir key with
       | none => simp
       | some p => simp [accessPath, localPath_sound transcriptsDir key p h])
    | (unfold downloadAudioLocal opWithinRoot
       cases h : localPath audioDir key with
       | none => simp
       | some p => simp [accessPath, localPath_sound audioDir key p h])
    | (unfold downloadTranscriptLocal opWithinRoot
       cases h : localPath transcriptsDir key with
       | none => simp
       | some p => simp [accessPath, localPath_sound transcriptsDir key p h])
    | (unfold deleteAudioLocal opWithinRoot
       cases h : localPath audioDir key with
       | none => simp
       | some p => simp [accessPath, localPath_sound audioDir key p h])
    | (unfold deleteTranscriptLocal opWithinRoot
       cases h : localPath transcriptsDir key with
       | none => simp
       | some p => simp [accessPath, localPath_sound transcriptsDir key p h])
    | (unfold createPresignedUrlLocal opWithinRoot
       cases h : localPath transcriptsDir key with
       | none => simp
       | some p => simp [accessPath, localPath_sound transcriptsDir key p h])

/-- Claim C7 counterexample: the `POST /transcribe` handler of
`app/main.py` accepts an upload that is one byte over the configured
`max_upload_mb` bound (500 MiB by default) instead of rejecting it with
413: its gate performs no size check at all. -/
theorem c7_oversized_upload_accepted_by_main :
    createTranscriptionJobGate "balanced" (maxUploadSizeBytes defaultMaxUploadSizeMb + 1)
      = .ok "queued" := by
  simp [createTranscriptionJobGate, QUALITY_PROFILES]

/-- Claim C7 (amended): `_validate_upload_size` accepts exactly the
uploads of at most `max_upload_mb * 1024 * 1024` bytes and rejects
larger ones with HTTP 413, and the transcriptions-router submission
gate behaves identically on the size dimension; the `POST /transcribe`
handler of `app/main.py`, however, performs no size validation and
accepts uploads of every size. -/
theorem c7_upload_size_validation (maxMb size : Nat) :
    validateUploadSize maxMb size
        = (if size ≤ maxMb * 1024 * 1024 then .ok ()
           else .error ⟨413, "Archivo demasiado grande"⟩)
    ∧ enqueueTranscriptionGate maxMb true size true
        = (if size ≤ maxMb * 1024 * 1024 then .ok ()
           else .error ⟨413, "Archivo demasiado grande"⟩)
    ∧ createTranscriptionJobGate "balanced" size = .ok "queued" := by
  unfold enqueueTranscriptionGate validateUploadSize createTranscriptionJobGate
  rcases le_or_lt size (maxMb * 1024 * 1024) with h | h
  · simp [Nat.not_lt.mpr h, h, QUALITY_PROFILES]
  · simp [h, Nat.not_le.mpr h, QUALITY_PROFILES]

/-- Helper: a single promotion step never decreases `last_t_end`, and
any change is exactly `max(last_t_end, abs_end)`. -/
theorem promoteSegment_lastTEnd (p : LiveParams) (off : ℚ) (st : LiveSessionState)
    (seg : RawSegment) :
    (promoteSegment p off st seg).lastTEnd = st.lastTEnd ∨
      (promoteSegment p off st seg).lastTEnd = max st.lastTEnd (off + seg.stop) := by
  unfold promoteSegment
  by_cases h : pyStrip seg.text = []
  · exact Or.inl (by simp [h])
  · by_cases hok : shouldAppendSegment p st (pyStrip seg.text) (off + seg.start) (off + seg.stop)
    · exact Or.inr (by simp [h, hok])
    · exact Or.inr (by simp [h, hok])

/-- Helper: a single promotion step is monotone in `last_t_end`. -/
theorem promoteSegment_le (p : LiveParams) (off : ℚ) (st : LiveSessionState)
    (seg : RawSegment) :
    st.lastTEnd ≤ (promoteSegment p off st seg).lastTEnd := by
  rcases promoteSegment_lastTEnd p off st seg with h | h
  · exact h ▸ le_refl _
  · exact h ▸ le_max_left _ _

/-- Claim C6: in the promotion loop of `push_live_chunk`, each decoded
segment only ever replaces `last_t_end` by the maximum of its current
value and the segment's absolute end time (segments with empty stripped
text leave it untouched), so `last_t_end` is non-decreasing across
chunk requests. -/
theorem c6_lastTEnd_monotone (p : LiveParams) (off : ℚ) (st : LiveSessionState)
    (segs : List RawSegment) :
    (∀ seg : RawSegment,
        (promoteSegment p off st seg).lastTEnd = st.lastTEnd ∨
          (promoteSegment p off st seg).lastTEnd = max st.lastTEnd (off + seg.stop))
    ∧ st.lastTEnd ≤ (promoteChunkSegments p off st segs).lastTEnd := by
  constructor
  · exact fun seg => promoteSegment_lastTEnd p off st seg
  · unfold promoteChunkSegments
    induction segs generalizing st with
    | nil => exact le_refl _
    | cons s rest ih =>
        exact le_trans (promoteSegment_le p off st s) (ih (promoteSegment p off st s))

/-- Claim C10: for tag lists whose entries are non-empty, comma-free
and already stripped, `_split_tags` inverts `_join_tags`; moreover
`_join_tags []` is `None` and `_split_tags None` is `[]`, so a job
submitted with no tags is listed with an empty tag list. -/
theorem c10_tags_roundtrip (ts : List PyStr)
    (h : ∀ t ∈ ts, t ≠ [] ∧ ',' ∉ t ∧ pyStrip t = t) :
    splitTags ((joinTags (some ts)).map TagsRaw.ofStr) = ts
    ∧ joinTags (some []) = none ∧ splitTags none = [] := by
  refine ⟨?_, rfl, rfl⟩
  cases ts with
  | nil => rfl
  | cons t rest =>
      have hne : (t :: rest) ≠ ([] : List PyStr) := by simp
      have hmem : ∀ l ∈ (t :: rest), ',' ∉ l := fun l hl => ((h l hl).2).1
      have hsplit : (List.intercalate [','] (t :: rest)).splitOn ',' = t :: rest :=
        List.splitOn_intercalate (t :: rest) ',' hmem hne
      have hmapAll : ∀ l : List PyStr, (∀ x ∈ l, pyStrip x = x) → l.map pyStrip = l := by
        intro l hl
        induction l with
        | nil => rfl
        | cons a as ih =>
            simp only [List.map_cons, hl a (by simp)]
            rw [ih (fun x hx => hl x (by simp [hx]))]
      have hmap : (t :: rest).map pyStrip = t :: rest :=
        hmapAll _ (fun x hx => ((h x hx).2).2)
      have hfilter : (t :: rest).filter (fun item => item ≠ []) = t :: rest := by
        apply List.filter_eq_self.mpr
        intro x hx
        simpa using (h x hx).1
      simp only [joinTags, Option.map_some', splitTags, hsplit, hmap, hfilter]

/-- Claim C10 witness: concrete round trip for the tag list
`["a", "bc"]`. -/
theorem c10_tags_roundtrip_witness :
    (∀ t ∈ [['a'], ['b', 'c']], t ≠ ([] : PyStr) ∧ ',' ∉ t ∧ pyStrip t = t)
    ∧ splitTags ((joinTags (some [['a'], ['b', 'c']])).map TagsRaw.ofStr)
        = [['a'], ['b', 'c']] :=
  ⟨by decide, (c10_tags_roundtrip [['a'], ['b', 'c']] (by decide)).1⟩

/-- Helper: Python `round()` is the identity on integers. -/
theorem pyRound_intCast (n : Int) : pyRound ((n : ℚ)) = n := by
  unfold pyRound
  rw [Int.floor_intCast]
  norm_num

/-- Claim C9 (code bug evidence): on the segment `[start=0.0, end=1.0,
text="hola"]` the `_segments_to_srt` renderer of `app/main.py` emits
the timestamp line `00:00:00 --> 00:00:01`, dropping the mandatory
`,mmm` milliseconds for whole-second times, while the repo's other SRT
timestamp formatter `_format_srt_timestamp` produces the claimed
`HH:MM:SS,mmm` shape at the same times. -/
theorem c9_srt_whole_seconds_missing_millis :
    segmentsToSrt [⟨0, 1, "hola".data⟩] = "1\n00:00:00 --> 00:00:01\nhola".data
    ∧ formatSrtTimestamp 0 = "00:00:00,000".data
    ∧ formatSrtTimestamp 1 = "00:00:01,000".data := by
  have h0 : utcTimestampParts 0 = (0, 0) := by
    have hp : pyRound ((0 : ℚ) * 1000000) = 0 := by
      have := pyRound_intCast 0
      simpa using this
    unfold utcTimestampParts
    rw [hp]
    decide
  have h1 : utcTimestampParts 1 = (1, 0) := by
    have hp : pyRound ((1 : ℚ) * 1000000) = 1000000 := by
      have := pyRound_intCast 1000000
      rw [one_mul]
      simpa using this
    unfold utcTimestampParts
    rw [hp]
    decide
  have hts0 : mainSrtTimestamp 0 = "00:00:00".data := by
    unfold mainSrtTimestamp
    rw [h0]
    decide
  have hts1 : mainSrtTimestamp 1 = "00:00:01".data := by
    unfold mainSrtTimestamp
    rw [h1]
    decide
  refine ⟨?_, ?_, ?_⟩
  · unfold segmentsToSrt
    simp only [srtLines, hts0, hts1]
    decide
  · have hp : pyRound ((0 : ℚ) * 1000) = 0 := by
      have := pyRound_intCast 0
      simpa using this
    unfold formatSrtTimestamp
    rw [hp]
    decide
  · have hp : pyRound ((1 : ℚ) * 1000) = 1000 := by
      have := pyRound_intCast 1000
      rw [one_mul]
      simpa using this
    unfold formatSrtTimestamp
    rw [hp]
    decide

/-- Helper: the per-token update writes the accumulated token count as
`progress`. -/
theorem onTokenMeta_progress (now : String) (parts : List String) (m : JobMeta) (t : Token) :
    (onTokenMeta now parts m t).progress = some ((parts.length : Int)) := by
  simp [onTokenMeta, updateJobMetaWrap]

/-- Helper: the token phase of `transcribe_job` keeps `progress` equal
to the transcript-buffer length, hence the saved metadata sequence is
progress-monotone, ends at the accumulated token count, and only writes
non-negative values. -/
theorem tokenRun_spec (now : String) (ts : List Token) :
    ∀ (parts : List String) (m : JobMeta),
      m.progress = some ((parts.length : Int)) →
      List.Chain' (fun a b => progVal a ≤ progVal b) (m :: (tokenRun now parts m ts).1)
      ∧ (tokenRun now parts m ts).2.2.progress = some (((parts.length + ts.length : Nat) : Int))
      ∧ (m :: (tokenRun now parts m ts).1).getLast? = some (tokenRun now parts m ts).2.2
      ∧ (∀ mm ∈ (tokenRun now parts m ts).1, 0 ≤ progVal mm) := by
  induction ts with
  | nil =>
      intro parts m h
      refine ⟨List.chain'_singleton m, by simpa [tokenRun] using h, rfl, by simp [tokenRun]⟩
  | cons t ts ih =>
      intro parts m h
      have hm2 : (onTokenMeta now (parts ++ [t.text]) m t).progress
          = some (((parts ++ [t.text]).length : Int)) :=
        onTokenMeta_progress now (parts ++ [t.text]) m t
      obtain ⟨ihChain, ihFin, ihLast, ihNN⟩ :=
        ih (parts ++ [t.text]) (onTokenMeta now (parts ++ [t.text]) m t) hm2
      have hstep : progVal m ≤ progVal (onTokenMeta now (parts ++ [t.text]) m t) := by
        simp only [progVal, h, hm2, Option.getD_some, List.length_append, List.length_cons,
          List.length_nil]
        exact_mod_cast Nat.le_succ parts.length
      refine ⟨?_, ?_, ?_, ?_⟩
      · exact List.chain'_cons.mpr ⟨hstep, ihChain⟩
      · simp only [tokenRun]
        rw [ihFin]
        congr 1
        simp only [List.length_append, List.length_cons, List.length_nil]
        omega
      · simp only [tokenRun]
        rw [List.getLast?_cons_cons]
        exact ihLast
      · intro mm hmm
        simp only [tokenRun, List.mem_cons] at hmm
        rcases hmm with hmm | hmm
        · subst hmm
          simp only [progVal, hm2, Option.getD_some]
          omega
        · exact ihNN mm hmm

/-- Claim C4: over a successful `transcribe_job` run starting from an
envelope seeded with `progress = 0` (or without a progress key), every
metadata value saved by the worker carries a `progress` greater than or
equal to the previously saved one — in particular the per-token update,
which writes the accumulated token count — so `progress` is
non-decreasing across successive reads of the envelope. -/
theorem c4_progress_monotone (now audioKey : String) (m0 : JobMeta)
    (qp : Option String) (tokens : List Token) (result : EngineResult)
    (h0 : m0.progress = none ∨ m0.progress = some 0) :
    List.Chain' (fun a b => progVal a ≤ progVal b)
      (m0 :: transcribeJobMetas now audioKey m0 qp tokens result) := by
  have hm1 : (transcribingMeta now m0 qp).progress = some 0 := by
    rcases h0 with h | h <;> simp [transcribingMeta, updateJobMetaWrap, h]
  have hm1' : (transcribingMeta now m0 qp).progress
      = some ((([] : List String).length : Int)) := by simpa using hm1
  obtain ⟨hchain, hfin, hlast, _⟩ := tokenRun_spec now tokens [] (transcribingMeta now m0 qp) hm1'
  have hfinal : (completedMeta now audioKey
      (tokenRun now [] (transcribingMeta now m0 qp) tokens).2.2 result).progress
      = some ((tokens.length : Int)) := by
    simp [completedMeta, updateJobMetaWrap, hfin]
  have happ : List.Chain' (fun a b => progVal a ≤ progVal b)
      ((transcribingMeta now m0 qp :: (tokenRun now [] (transcribingMeta now m0 qp) tokens).1)
        ++ [completedMeta now audioKey
              (tokenRun now [] (transcribingMeta now m0 qp) tokens).2.2 result]) := by
    apply List.chain'_append.mpr
    refine ⟨hchain, List.chain'_singleton _, ?_⟩
    intro x hx y hy
    rw [hlast] at hx
    simp only [Option.mem_def, Option.some.injEq] at hx
    simp only [List.head?_cons, Option.mem_def, Option.some.injEq] at hy
    subst hx
    subst hy
    simp only [progVal, hfin, hfinal, Option.getD_some]
    simp
  have hzero : progVal m0 ≤ progVal (transcribingMeta now m0 qp) := by
    rcases h0 with h | h <;> simp [progVal, h, hm1]
  show List.Chain' (fun a b => progVal a ≤ progVal b)
      (m0 :: transcribingMeta now m0 qp
        :: (tokenRun now [] (transcribingMeta now m0 qp) tokens).1
        ++ [completedMeta now audioKey
              (tokenRun now [] (transcribingMeta now m0 qp) tokens).2.2 result])
  rw [List.cons_append]
  exact List.chain'_cons.mpr ⟨hzero, by simpa using happ⟩

/-- Claim C4 witness: concrete monotone run with one token. -/
theorem c4_progress_monotone_witness :
    (({ progress := some 0 } : JobMeta).progress = none
        ∨ ({ progress := some 0 } : JobMeta).progress = some 0)
    ∧ List.Chain' (fun a b => progVal a ≤ progVal b)
        (({ progress := some 0 } : JobMeta)
          :: transcribeJobMetas "t" "a.wav" { progress := some 0 } (some "balanced")
              [{ text := "hola " }] { text := "hola" }) :=
  ⟨Or.inr rfl,
    c4_progress_monotone "t" "a.wav" { progress := some 0 } (some "balanced")
      [{ text := "hola " }] { text := "hola" } (Or.inr rfl)⟩

/-- Claim C5 counterexample: with 101 token events the per-token update
of `transcribe_job` writes `progress = 101 > 100`; the worker never
caps `progress` at 100, refuting the claimed `[0,100]` bound. -/
theorem c5_progress_exceeds_100 :
    ((transcribeJobMetas "t" "a.wav" { progress := some 0 } (some "balanced")
        (List.replicate 101 { text := "x" }) { text := "x" }).map progVal).getLast?
      = some 101 ∧ (100 : Int) < 101 := by
  constructor
  · decide
  · decide

/-- Claim C5 (amended): over a successful `transcribe_job` run starting
from an envelope seeded with `progress = 0` (or without a progress
key), every saved `progress` value is a non-negative integer, and the
worker's final saved `progress` equals the accumulated token count —
which exceeds 100 whenever the engine emits more than 100 token
events. -/
theorem c5_progress_token_count (now audioKey : String) (m0 : JobMeta)
    (qp : Option String) (tokens : List Token) (result : EngineResult)
    (h0 : m0.progress = none ∨ m0.progress = some 0) :
    (∀ m ∈ transcribeJobMetas now audioKey m0 qp tokens result, 0 ≤ progVal m)
    ∧ ((transcribeJobMetas now audioKey m0 qp tokens result).getLast?.map progVal
        = some ((tokens.length : Int))) := by
  have hm1 : (transcribingMeta now m0 qp).progress = some 0 := by
    rcases h0 with h | h <;> simp [transcribingMeta, updateJobMetaWrap, h]
  have hm1' : (transcribingMeta now m0 qp).progress
      = some ((([] : List String).length : Int)) := by simpa using hm1
  obtain ⟨_, hfin, _, hnn⟩ := tokenRun_spec now tokens [] (transcribingMeta now m0 qp) hm1'
  have hfinal : (completedMeta now audioKey
      (tokenRun now [] (transcribingMeta now m0 qp) tokens).2.2 result).progress
      = some ((tokens.length : Int)) := by
    simp [completedMeta, updateJobMetaWrap, hfin]
  constructor
  · intro m hm
    simp only [transcribeJobMetas] at hm
    rcases List.mem_cons.mp hm with h1 | h1
    · subst h1
      simp [progVal, hm1]
    · rcases List.mem_append.mp h1 with h2 | h2
      · exact hnn m h2
      · have h3 := List.mem_singleton.mp h2
        subst h3
        simp [progVal, hfinal]
  · show (((transcribingMeta now m0 qp
        :: (tokenRun now [] (transcribingMeta now m0 qp) tokens).1)
        ++ [completedMeta now audioKey
              (tokenRun now [] (transcribingMeta now m0 qp) tokens).2.2 result]).getLast?.map
          progVal) = some ((tokens.length : Int))
    rw [List.getLast?_append_cons]
    simp [progVal, hfinal]

/-- Claim C5 amended-theorem witness: concrete run with two tokens
whose final saved progress is the token count 2. -/
theorem c5_progress_token_count_witness :
    (({ progress := some 0 } : JobMeta).progress = none
        ∨ ({ progress := some 0 } : JobMeta).progress = some 0)
    ∧ ((transcribeJobMetas "t" "a.wav" { progress := some 0 } none
          [{ text := "a" }, { text := "b" }] { text := "ab" }).getLast?.map progVal
        = some 2) := by
  refine ⟨Or.inr rfl, ?_⟩
  have h := (c5_progress_token_count "t" "a.wav" { progress := some 0 } none
    [{ text := "a" }, { text := "b" }] { text := "ab" } (Or.inr rfl)).2
  simpa using h

/-- Helper: `json.dumps` of a dict is never the empty string. -/
theorem jsonDumpDict_ne_empty (entries : List (String × String)) :
    jsonDumpDict entries ≠ "" := by
  intro h
  have hlen := congrArg String.length h
  have h1 : ("\x7b" : String).length = 1 := rfl
  have h2 : ("\x7d" : String).length = 1 := rfl
  have h0 : ("" : String).length = 0 := rfl
  simp only [jsonDumpDict, String.length_append, h1, h2, h0] at hlen
  omega

/-- Helper: for token payloads the worker can store, the truthiness of
the serialized token text is exactly the presence of `last_token`. -/
theorem pyTruthy_jsonTokenText (tv : Option TokenVal) (h : tokenOk tv) :
    pyTruthyStr (jsonTokenText tv) = tv.isSome := by
  match tv with
  | none => rfl
  | some (.dict entries) =>
      simp [jsonTokenText, pyTruthyStr, jsonDumpDict_ne_empty entries, Option.isSome]
  | some (.str s) =>
      have hs : s ≠ "" := h
      simp [jsonTokenText, pyTruthyStr, hs, Option.isSome]

/-- Helper: the events of a non-terminating poll body are all
non-terminal. -/
theorem pollBody_go_ok (jobId : String) (st : StreamState) (o : PollObs)
    (h : (pollBody jobId st o).stop = false) :
    ∀ e ∈ (pollBody jobId st o).events, isTerminal e = false := by
  unfold pollBody at h ⊢
  by_cases hc : metaStatusOf o.meta o.status == "completed" <;>
    by_cases hf : (metaStatusOf o.meta o.status == "failed") || (o.status == "failed") <;>
    by_cases hs : snapFire st o.meta <;>
    by_cases hd : deltaFire st o.meta <;>
    by_cases hh : hbFire st.lastHeartbeat o.now <;>
    simp_all [isTerminal]

/-- Helper: all events of a poll body except possibly the last are
non-terminal. -/
theorem pollBody_dropLast_ok (jobId : String) (st : StreamState) (o : PollObs) :
    ∀ e ∈ (pollBody jobId st o).events.dropLast, isTerminal e = false := by
  unfold pollBody
  by_cases hc : metaStatusOf o.meta o.status == "completed" <;>
    by_cases hf : (metaStatusOf o.meta o.status == "failed") || (o.status == "failed") <;>
    by_cases hs : snapFire st o.meta <;>
    by_cases hd : deltaFire st o.meta <;>
    by_cases hh : hbFire st.lastHeartbeat o.now <;>
    simp_all [isTerminal, List.dropLast]

/-- Helper: a poll body yields a delta exactly when the delta condition
fires. -/
theorem pollBody_any_delta (jobId : String) (st : StreamState) (o : PollObs) :
    (pollBody jobId st o).events.any isDelta = deltaFire st o.meta := by
  unfold pollBody
  by_cases hc : metaStatusOf o.meta o.status == "completed" <;>
    by_cases hf : (metaStatusOf o.meta o.status == "failed") || (o.status == "failed") <;>
    by_cases hs : snapFire st o.meta <;>
    by_cases hd : deltaFire st o.meta <;>
    by_cases hh : hbFire st.lastHeartbeat o.now <;>
    simp_all [isDelta]

/-- Helper: a poll body advances `last_progress` exactly on a delta
emission (to the observed progress value); snapshots, heartbeats and
terminal events leave it unchanged. -/
theorem pollBody_lastProgress (jobId : String) (st : StreamState) (o : PollObs) :
    (pollBody jobId st o).state.lastProgress
      = (if deltaFire st o.meta then progVal o.meta else st.lastProgress) := by
  unfold pollBody
  by_cases hc : metaStatusOf o.meta o.status == "completed" <;>
    by_cases hf : (metaStatusOf o.meta o.status == "failed") || (o.status == "failed") <;>
    by_cases hs : snapFire st o.meta <;>
    by_cases hd : deltaFire st o.meta <;>
    by_cases hh : hbFire st.lastHeartbeat o.now <;>
    simp_all

/-- Helper: dropLast-safety for every poll step (including the
ownership-mismatch error). -/
theorem pollStep_dropLast_ok (jobId : String) (expected : Option Int) (st : StreamState)
    (o : PollObs) :
    ∀ e ∈ (pollStep jobId expected st o).events.dropLast, isTerminal e = false := by
  unfold pollStep
  by_cases hauth : authFail expected o.meta.userId
  · simp [hauth, List.dropLast]
  · simpa [hauth] using pollBody_dropLast_ok jobId st o

/-- Helper: a poll step that does not stop yields only non-terminal
events. -/
theorem pollStep_go_ok (jobId : String) (expected : Option Int) (st : StreamState)
    (o : PollObs) (h : (pollStep jobId expected st o).stop = false) :
    ∀ e ∈ (pollStep jobId expected st o).events, isTerminal e = false := by
  unfold pollStep at h ⊢
  by_cases hauth : authFail expected o.meta.userId
  · simp [hauth] at h
  · simpa [hauth] using pollBody_go_ok jobId st o (by simpa [hauth] using h)

/-- Helper: in every trace of the polling loop, all events except
possibly the last are non-terminal. -/
theorem streamLoop_dropLast_ok (jobId : String) (expected : Option Int) :
    ∀ (obs : List PollObs) (st : StreamState),
      ∀ e ∈ (streamLoop jobId expected st obs).dropLast, isTerminal e = false := by
  intro obs
  induction obs with
  | nil => intro st e he; simp [streamLoop] at he
  | cons o rest ih =>
      intro st e he
      simp only [streamLoop] at he
      by_cases hstop : (pollStep jobId expected st o).stop
      · rw [if_pos hstop] at he
        exact pollStep_dropLast_ok jobId expected st o e he
      · rw [if_neg hstop] at he
        cases hrest : streamLoop jobId expected (pollStep jobId expected st o).state rest with
        | nil =>
            rw [hrest, List.append_nil] at he
            exact pollStep_go_ok jobId expected st o (by simpa using hstop) e
              ((List.dropLast_sublist _).subset he)
        | cons a t =>
            rw [hrest, List.dropLast_append_of_ne_nil _ (by simp)] at he
            rcases List.mem_append.mp he with hmem | hmem
            · exact pollStep_go_ok jobId expected st o (by simpa using hstop) e hmem
            · have := ih (pollStep jobId expected st o).state e
              rw [hrest] at this
              exact this hmem

/-- Helper: a list whose non-final entries are all non-terminal holds
at most one terminal event. -/
theorem countP_terminal_le_one :
    ∀ (l : List SSEEvent), (∀ e ∈ l.dropLast, isTerminal e = false) →
      l.countP isTerminal ≤ 1 := by
  intro l
  induction l with
  | nil => intro _; simp
  | cons a t ih =>
      intro h
      cases t with
      | nil =>
          simp only [List.countP_cons, List.countP_nil]
          cases isTerminal a <;> simp
      | cons b t' =>
          have ha : isTerminal a = false := h a (by simp [List.dropLast])
          have hcount := ih (fun e he =>
            h e (show e ∈ a :: (b :: t').dropLast from List.mem_cons_of_mem a he))
          rw [List.countP_cons, ha]
          simpa using hcount

/-- Claim C2: every event sequence produced by `_stream_job` contains
at most one terminal event (`completed` or `error`), and any terminal
event is the last event of the sequence (equivalently: all events
before the last are non-terminal). -/
theorem c2_terminal_event_is_last (job : Option FetchedJob) (expected : Option Int)
    (t0 : Int) (obs : List PollObs) :
    (∀ e ∈ (streamJob job expected t0 obs).dropLast, isTerminal e = false)
    ∧ (streamJob job expected t0 obs).countP isTerminal ≤ 1 := by
  have hdrop : ∀ e ∈ (streamJob job expected t0 obs).dropLast, isTerminal e = false := by
    cases job with
    | none => simp [streamJob, List.dropLast]
    | some j =>
        by_cases hauth : authFail expected j.meta.userId
        · simp [streamJob, hauth, List.dropLast]
        · simpa [streamJob, hauth] using
            streamLoop_dropLast_ok j.id expected obs (initStreamState j.meta t0)
  exact ⟨hdrop, countP_terminal_le_one _ hdrop⟩

/-- Claim C1: in a poll iteration of `_stream_job` whose ownership
check passes, a `delta` event is emitted exactly when the observed
`progress` strictly exceeds the recorded `last_progress` and the
envelope meta contains a `last_token` payload; and `last_progress` is
advanced (to the observed progress) exactly on a delta emission, so in
particular emitting a heartbeat never changes it. -/
theorem c1_delta_iff_progress_and_token (jobId : String) (expected : Option Int)
    (st : StreamState) (o : PollObs)
    (hauth : authFail expected o.meta.userId = false)
    (htok : tokenOk o.meta.lastToken) :
    ((pollStep jobId expected st o).events.any isDelta
        = (decide (st.lastProgress < progVal o.meta) && o.meta.lastToken.isSome))
    ∧ ((pollStep jobId expected st o).state.lastProgress
        = if st.lastProgress < progVal o.meta ∧ o.meta.lastToken.isSome = true
          then progVal o.meta else st.lastProgress) := by
  have hdf : deltaFire st o.meta
      = (decide (st.lastProgress < progVal o.meta) && o.meta.lastToken.isSome) := by
    unfold deltaFire
    rw [pyTruthy_jsonTokenText o.meta.lastToken htok]
  have hstep : pollStep jobId expected st o = pollBody jobId st o := by
    unfold pollStep
    simp [hauth]
  constructor
  · rw [hstep, pollBody_any_delta, hdf]
  · rw [hstep, pollBody_lastProgress, hdf]
    by_cases hcond : st.lastProgress < progVal o.meta ∧ o.meta.lastToken.isSome = true
    · rw [if_pos hcond, if_pos]
      simp [hcond.1, hcond.2]
    · rw [if_neg hcond, if_neg]
      intro hb
      apply hcond
      constructor
      · exact of_decide_eq_true (Bool.and_elim_left hb)
      · exact Bool.and_elim_right hb

/-- Claim C1 witness: with recorded last-progress 0, observed progress
2 and a present token payload, the delta fires and last-progress
advances to 2. -/
theorem c1_delta_iff_witness :
    authFail (some 1) (some 1) = false
    ∧ tokenOk (some (TokenVal.str "T"))
    ∧ (((pollStep "job-1" (some 1) ⟨0, 0, true, 0⟩
          ⟨{ userId := some 1, progress := some 2, lastToken := some (TokenVal.str "T") },
            "started", 0⟩).events.any isDelta
        = (decide ((0 : Int)
              < progVal { userId := some 1, progress := some 2,
                          lastToken := some (TokenVal.str "T") })
            && (some (TokenVal.str "T")).isSome))
      ∧ ((pollStep "job-1" (some 1) ⟨0, 0, true, 0⟩
          ⟨{ userId := some 1, progress := some 2, lastToken := some (TokenVal.str "T") },
            "started", 0⟩).state.lastProgress
        = if (0 : Int)
              < progVal { userId := some 1, progress := some 2,
                          lastToken := some (TokenVal.str "T") }
              ∧ (some (TokenVal.str "T")).isSome = true
          then progVal { userId := some 1, progress := some 2,
                         lastToken := some (TokenVal.str "T") }
          else (0 : Int))) :=
  ⟨rfl, by unfold tokenOk; decide,
    c1_delta_iff_progress_and_token "job-1" (some 1) ⟨0, 0, true, 0⟩
      ⟨{ userId := some 1, progress := some 2, lastToken := some (TokenVal.str "T") },
        "started", 0⟩
      rfl (by unfold tokenOk; decide)⟩

/-- Claim C3: for an authenticated subscriber, a missing envelope and
an envelope owned by another user produce the identical event sequence:
exactly one `error` event with detail `"job-not-found"`, after which
the stream terminates; a non-owner thus cannot tell whether the job
exists. -/
theorem c3_job_not_found_indistinguishable (ownerId : Int) (j : FetchedJob) (u : Int)
    (t0 : Int) (obs : List PollObs)
    (hu : j.meta.userId = some u) (hne : u ≠ ownerId) :
    streamJob none (some ownerId) t0 obs = [SSEEvent.error none "job-not-found"]
    ∧ streamJob (some j) (some ownerId) t0 obs = [SSEEvent.error none "job-not-found"]
    ∧ streamJob (some j) (some ownerId) t0 obs = streamJob none (some ownerId) t0 obs := by
  have hfail : authFail (some ownerId) j.meta.userId = true := by
    rw [hu]
    simpa [authFail] using hne
  refine ⟨rfl, ?_, ?_⟩ <;> simp [streamJob, hfail]

/-- Claim C3 witness: subscriber 1 on a job owned by user 2 receives
exactly the `job-not-found` error a missing job would produce. -/
theorem c3_job_not_found_witness :
    (({ userId := some 2 } : JobMeta).userId = some 2 ∧ (2 : Int) ≠ 1)
    ∧ streamJob (some ⟨"job-1", { userId := some 2 }⟩) (some 1) 0 []
        = [SSEEvent.error none "job-not-found"] :=
  ⟨⟨rfl, by decide⟩,
    (c3_job_not_found_indistinguishable 1 ⟨"job-1", { userId := some 2 }⟩ 2 0 []
      rfl (by decide)).2.1⟩

end Grabadora
